import Mathlib

/-!
Verification of the personal-trainer front end.

Shallow embedding of the parts of the repository the specification talks
about: the local text filters of the list views, the statistics
aggregation, the calendar projection, the fetch/mutate/refresh state
machines of the two list views, and the set of REST actions wrapped by the
API client. Each definition is translated from the corresponding source
function; doc comments name the source location.
-/

namespace PersonalTrainer

/-! ## Strings: model of JavaScript toLowerCase and String.includes -/

/-- Model of JavaScript toLowerCase on one character (ASCII range: the data
of this application is plain text; uppercase A-Z maps to a-z, all other
characters are unchanged). -/
def lowerChar (c : Char) : Char :=
  if 65 ≤ c.toNat ∧ c.toNat ≤ 90 then Char.ofNat (c.toNat + 32) else c

/-- Model of JavaScript String.prototype.toLowerCase: lowerChar applied to
every character. -/
def lowerStr (s : String) : String :=
  ⟨s.data.map lowerChar⟩

/-- Does the second list occur at the head of the first list? Helper for
the model of String.prototype.includes. -/
def matchesFrom : List Char → List Char → Bool
  | _, [] => true
  | [], _ :: _ => false
  | b :: bs, a :: as => a == b && matchesFrom bs as

/-- Does the needle occur as a contiguous run anywhere in the haystack? -/
def charsContain (hay needle : List Char) : Bool :=
  match hay with
  | [] => needle.isEmpty
  | _ :: bs => matchesFrom hay needle || charsContain bs needle

/-- Model of JavaScript String.prototype.includes. -/
def strIncludes (hay needle : String) : Bool :=
  charsContain hay.data needle.data

/-! ## Data model -/

/-- A customer row as held by the customers list view: the attribute fields
of the REST payload plus the self link used as identity. -/
structure Customer where
  firstname : String
  lastname : String
  email : String
  phone : String
  streetaddress : String
  postcode : String
  city : String
  selfHref : String
deriving DecidableEq

/-- The customer object embedded in a training payload (only the name
fields are read by the views). -/
structure TrainingCustomer where
  firstname : String
  lastname : String
deriving DecidableEq

/-- A training row as returned by the gettrainings endpoint: id, ISO date
string, duration in minutes, activity label, and the embedded owning
customer. The customer field is optional because the views guard against
a missing customer object. -/
structure Training where
  id : Int
  date : String
  duration : Int
  activity : String
  customer : Option TrainingCustomer
deriving DecidableEq

/-! ## Local text filters (CustomerList filteredCustomers, TrainingList
filteredTrainings) -/

/-- The predicate of the customers search filter: case-insensitive
substring match of the search term against firstname, lastname, email and
city. Translated from the filteredCustomers expression in the customers
page. -/
def matchesCustomer (searchTerm : String) (c : Customer) : Bool :=
  let searchStr := lowerStr searchTerm
  strIncludes (lowerStr c.firstname) searchStr ||
  strIncludes (lowerStr c.lastname) searchStr ||
  strIncludes (lowerStr c.email) searchStr ||
  strIncludes (lowerStr c.city) searchStr

/-- filteredCustomers: the customers collection filtered by the search
term. -/
def filteredCustomers (customers : List Customer) (searchTerm : String) :
    List Customer :=
  customers.filter (matchesCustomer searchTerm)

/-- The predicate of the trainings search filter: case-insensitive
substring match against the activity, or against the customer full name
when the customer object is present (the JavaScript guard
`training.customer && ...` makes a missing customer contribute false).
Translated from the filteredTrainings expression in the trainings page. -/
def matchesTraining (searchTerm : String) (t : Training) : Bool :=
  let searchStr := lowerStr searchTerm
  strIncludes (lowerStr t.activity) searchStr ||
    (match t.customer with
     | some c => strIncludes (lowerStr (c.firstname ++ " " ++ c.lastname)) searchStr
     | none => false)

/-- filteredTrainings: the trainings collection filtered by the search
term. -/
def filteredTrainings (trainings : List Training) (searchTerm : String) :
    List Training :=
  trainings.filter (matchesTraining searchTerm)

/-! ## Statistics aggregation (Statistics.jsx fetchStats) -/

/-- One bar of the statistics chart: an activity label and the summed
duration of its group. -/
structure ActivityStat where
  activity : String
  duration : Int
deriving DecidableEq

/-- The keys of the lodash groupBy object, in first-occurrence order
(JavaScript object string keys enumerate in insertion order, which for
groupBy is the order of first occurrence). -/
def groupKeys (ts : List Training) : List String :=
  ts.foldl (fun ks t => if t.activity ∈ ks then ks else ks ++ [t.activity]) []

/-- Model of `Object.entries(groupBy(trainings, activity))`: keys in
first-occurrence order, each group holding the trainings with exactly
that activity label, in input order. -/
def groupByActivity (ts : List Training) : List (String × List Training) :=
  (groupKeys ts).map (fun a => (a, ts.filter (fun t => t.activity = a)))

/-- Model of `sumBy(trainings, duration)`. -/
def sumBy (g : List Training) : Int :=
  (g.map (fun t => t.duration)).sum

/-- The unsorted per-activity statistics, as built by the map over
`Object.entries(groupedStats)` in fetchStats. -/
def activityStats (ts : List Training) : List ActivityStat :=
  (groupByActivity ts).map (fun p => { activity := p.1, duration := sumBy p.2 })

/-- The order used by `activityStats.sort((a, b) => b.duration - a.duration)`:
descending summed duration. -/
def statDescOrder (a b : ActivityStat) : Prop :=
  b.duration ≤ a.duration

instance : DecidableRel statDescOrder := fun a b =>
  inferInstanceAs (Decidable (b.duration ≤ a.duration))

instance : IsTotal ActivityStat statDescOrder :=
  ⟨fun a b => le_total b.duration a.duration⟩

instance : IsTrans ActivityStat statDescOrder :=
  ⟨fun _ _ _ h1 h2 => le_trans h2 h1⟩

/-- The statistics produced by fetchStats for a loaded training
collection: group by activity, sum durations, sort by descending summed
duration (JavaScript Array.prototype.sort is stable, so a stable
insertion sort models it exactly). -/
def fetchStatsModel (ts : List Training) : List ActivityStat :=
  (activityStats ts).insertionSort statDescOrder

/-! ## Calendar projection (CalendarPage fetchTrainings) -/

/-- A training as the calendar page reads it: the date string has already
been parsed, so the timestamp is carried as epoch milliseconds (the value
of `new Date(training.date).getTime()`); the owning customer is embedded,
as the gettrainings read contract guarantees and the calendar page
assumes. -/
structure CalTraining where
  id : Int
  dateMs : Int
  duration : Int
  activity : String
  customer : TrainingCustomer
deriving DecidableEq

/-- One entry of the calendar widget, with start and end instants in epoch
milliseconds. -/
structure CalendarEvent where
  id : Int
  title : String
  startMs : Int
  endMs : Int
  customerName : String
deriving DecidableEq

/-- The per-training body of the `trainings.map((training) => ...)` in the
calendar page fetchTrainings: title is activity, a slash, and the
customer full name; start is the training timestamp; end adds duration
minutes times 60000 milliseconds. -/
def toCalendarEvent (t : CalTraining) : CalendarEvent :=
  { id := t.id
  , title := t.activity ++ " / " ++ t.customer.firstname ++ " " ++ t.customer.lastname
  , startMs := t.dateMs
  , endMs := t.dateMs + t.duration * 60000
  , customerName := t.customer.firstname ++ " " ++ t.customer.lastname }

/-- The calendar events derived from a loaded training collection. -/
def calendarEvents (ts : List CalTraining) : List CalendarEvent :=
  ts.map toCalendarEvent

/-! ## List-view state machines

The two list views are modelled as pure step functions: each handler takes
the view state and the outcome the remote service gives to each call it
issues (success with a decoded payload, or a transport error), and returns
the next state together with the ordered list of observable effects (HTTP
calls issued, toast notifications, console logging). -/

/-- The remote calls the views can issue through the api object. -/
inductive ApiCall
  | getCustomers
  | addCustomer
  | updateCustomer
  | deleteCustomer
  | getTrainings
  | addTraining
  | deleteTraining
deriving DecidableEq

/-- An observable effect of a handler, in the order the code performs
them. -/
inductive Effect
  | call (c : ApiCall)
  | toastSuccess (msg : String)
  | toastError (msg : String)
  | consoleError (msg : String)
deriving DecidableEq

/-- The HTTP calls contained in an effect trace, in order. -/
def apiCallsOf (es : List Effect) : List ApiCall :=
  es.filterMap (fun e => match e with
    | .call c => some c
    | _ => none)

/-- Whether an effect trace surfaces a failure toast. -/
def hasToastError (es : List Effect) : Bool :=
  es.any (fun e => match e with
    | .toastError _ => true
    | _ => false)

/-- Whether an effect trace logs to the console. -/
def hasConsoleError (es : List Effect) : Bool :=
  es.any (fun e => match e with
    | .consoleError _ => true
    | _ => false)

/-- The outcome the remote service gives to one call: a decoded payload or
a transport error. -/
def Outcome (α : Type) : Type := Except Unit α

/-- The state of the CustomerList component (the useState hooks, in
declaration order). -/
structure CustomerListState where
  customers : List Customer
  loading : Bool
  searchTerm : String
  customerDialogOpen : Bool
  trainingDialogOpen : Bool
  deleteDialogOpen : Bool
  selectedCustomer : Option Customer
  selectedCustomerUrl : String
  isEditing : Bool
deriving DecidableEq

/-- The CustomerList state at mount time. -/
def initialCustomerListState : CustomerListState :=
  { customers := []
  , loading := true
  , searchTerm := ""
  , customerDialogOpen := false
  , trainingDialogOpen := false
  , deleteDialogOpen := false
  , selectedCustomer := none
  , selectedCustomerUrl := ""
  , isEditing := false }

/-- fetchCustomers of CustomerList: set loading, issue the list-all call,
on success replace the collection with the response, on failure toast and
log; loading is cleared in the finally block either way. -/
def fetchCustomers (s : CustomerListState) (res : Outcome (List Customer)) :
    CustomerListState × List Effect :=
  match res with
  | .ok cs =>
      ({ s with customers := cs, loading := false }, [.call .getCustomers])
  | .error _ =>
      ({ s with loading := false },
       [.call .getCustomers, .toastError "Failed to fetch customers",
        .consoleError "Error fetching customers:"])

/-- handleAddCustomer: POST the customer; on success toast, refetch the
whole collection and close the dialog; on failure toast and log, leaving
state untouched. -/
def handleAddCustomer (s : CustomerListState) (mutRes : Outcome Customer)
    (fetchRes : Outcome (List Customer)) : CustomerListState × List Effect :=
  match mutRes with
  | .ok _ =>
      let r := fetchCustomers s fetchRes
      ({ r.1 with customerDialogOpen := false },
       [.call .addCustomer, .toastSuccess "Customer added successfully"] ++ r.2)
  | .error _ =>
      (s, [.call .addCustomer, .toastError "Failed to add customer",
           .consoleError "Error adding customer:"])

/-- handleEditCustomer: a guard returns early when no selected customer
(or no self link) is present; otherwise PUT the customer, and on success
toast, refetch, close the dialog and clear the selection; on failure
toast and log. -/
def handleEditCustomer (s : CustomerListState) (_customer : Customer)
    (mutRes : Outcome Customer) (fetchRes : Outcome (List Customer)) :
    CustomerListState × List Effect :=
  match s.selectedCustomer with
  | none => (s, [])
  | some sel =>
      if sel.selfHref = "" then (s, [])
      else
        match mutRes with
        | .ok _ =>
            let r := fetchCustomers s fetchRes
            ({ r.1 with customerDialogOpen := false, selectedCustomer := none },
             [.call .updateCustomer, .toastSuccess "Customer updated successfully"] ++ r.2)
        | .error _ =>
            (s, [.call .updateCustomer, .toastError "Failed to update customer",
                 .consoleError "Error updating customer:"])

/-- handleDeleteCustomer: a guard returns early when no customer URL is
selected; otherwise DELETE, and on success toast, refetch, close the
dialog and clear the selection; on failure toast and log. -/
def handleDeleteCustomer (s : CustomerListState) (mutRes : Outcome Unit)
    (fetchRes : Outcome (List Customer)) : CustomerListState × List Effect :=
  if s.selectedCustomerUrl = "" then (s, [])
  else
    match mutRes with
    | .ok _ =>
        let r := fetchCustomers s fetchRes
        ({ r.1 with deleteDialogOpen := false, selectedCustomerUrl := "" },
         [.call .deleteCustomer, .toastSuccess "Customer deleted successfully"] ++ r.2)
    | .error _ =>
        (s, [.call .deleteCustomer, .toastError "Failed to delete customer",
             .consoleError "Error deleting customer:"])

/-- handleAddTraining of CustomerList: POST the training; on success toast
and close the training dialog; on failure toast and log. No refetch is
issued on either branch. -/
def handleAddTraining (s : CustomerListState) (mutRes : Outcome Unit) :
    CustomerListState × List Effect :=
  match mutRes with
  | .ok _ =>
      ({ s with trainingDialogOpen := false, selectedCustomerUrl := "" },
       [.call .addTraining, .toastSuccess "Training added successfully"])
  | .error _ =>
      (s, [.call .addTraining, .toastError "Failed to add training",
           .consoleError "Error adding training:"])

/-- The state of the TrainingList component (the useState hooks, in
declaration order). -/
structure TrainingListState where
  trainings : List Training
  loading : Bool
  searchTerm : String
  deleteDialogOpen : Bool
  selectedTrainingId : Option Int
deriving DecidableEq

/-- The TrainingList state at mount time. -/
def initialTrainingListState : TrainingListState :=
  { trainings := []
  , loading := true
  , searchTerm := ""
  , deleteDialogOpen := false
  , selectedTrainingId := none }

/-- fetchTrainings of TrainingList: issue the list-all call, on success
replace the collection with the response, on failure log and toast;
loading is cleared in the finally block either way. -/
def fetchTrainings (s : TrainingListState) (res : Outcome (List Training)) :
    TrainingListState × List Effect :=
  match res with
  | .ok ts =>
      ({ s with trainings := ts, loading := false }, [.call .getTrainings])
  | .error _ =>
      ({ s with loading := false },
       [.call .getTrainings, .consoleError "Error fetching trainings:",
        .toastError "Failed to load training sessions"])

/-- handleDeleteTraining: a guard returns early when no training id is
selected; otherwise DELETE, and on success refetch the whole collection,
close the dialog, clear the selection and toast; on failure log and
toast. -/
def handleDeleteTraining (s : TrainingListState) (mutRes : Outcome Unit)
    (fetchRes : Outcome (List Training)) : TrainingListState × List Effect :=
  match s.selectedTrainingId with
  | none => (s, [])
  | some _ =>
      match mutRes with
      | .ok _ =>
          let r := fetchTrainings s fetchRes
          ({ r.1 with deleteDialogOpen := false, selectedTrainingId := none },
           [.call .deleteTraining] ++ r.2 ++
             [.toastSuccess "Training session deleted successfully"])
      | .error _ =>
          (s, [.call .deleteTraining, .consoleError "Error deleting training:",
               .toastError "Failed to delete training session"])

/-! ## REST actions and the API client surface (api.js, Layout.jsx) -/

/-- The REST actions of the remote service contract. -/
inductive RestAction
  | listCustomers
  | createCustomer
  | replaceCustomer
  | deleteCustomerAction
  | listTrainings
  | createTraining
  | deleteTrainingAction
  | resetAllData
deriving DecidableEq

/-- HTTP methods used by the application. -/
inductive HttpMethod
  | get
  | post
  | put
  | delete
deriving DecidableEq

/-- One HTTP request: method and URL. -/
structure Request where
  method : HttpMethod
  url : String
deriving DecidableEq

/-- The base URL constant of api.js. -/
def BASE_URL : String :=
  "https://customer-rest-service-frontend-personaltrainer.2.rahtiapp.fi/api"

/-- The async operations exposed by the api object in api.js, in source
order: getCustomers, addCustomer, updateCustomer, deleteCustomer,
getTrainings, addTraining, deleteTraining. -/
def apiClientActions : List RestAction :=
  [.listCustomers, .createCustomer, .replaceCustomer, .deleteCustomerAction,
   .listTrainings, .createTraining, .deleteTrainingAction]

/-- The requests the seven api object operations issue, given the dynamic
customer URL and training id arguments of the update and delete
operations, in the same source order as apiClientActions. -/
def apiClientRequests (customerUrl : String) (trainingId : Int) : List Request :=
  [ { method := .get, url := BASE_URL ++ "/customers" }
  , { method := .post, url := BASE_URL ++ "/customers" }
  , { method := .put, url := customerUrl }
  , { method := .delete, url := customerUrl }
  , { method := .get, url := BASE_URL ++ "/gettrainings" }
  , { method := .post, url := BASE_URL ++ "/trainings" }
  , { method := .delete, url := BASE_URL ++ "/trainings/" ++ toString trainingId } ]

/-- The request issued by handleResetDatabase in Layout.jsx: a direct
axios.post to the /reset endpoint, not routed through the api object. -/
def resetRequest : Request :=
  { method := .post
  , url := "https://customer-rest-service-frontend-personaltrainer.2.rahtiapp.fi/reset" }

/-- The REST action performed by handleResetDatabase in Layout.jsx. -/
def layoutResetAction : RestAction :=
  .resetAllData

/-! ## Concrete sample data used by witnesses and the spec scenario -/

/-- The training collection of the statistics scenario in the spec. -/
def statsScenarioInput : List Training :=
  [ { id := 1, date := "", duration := 30, activity := "Run", customer := none }
  , { id := 2, date := "", duration := 45, activity := "Run", customer := none }
  , { id := 3, date := "", duration := 20, activity := "Yoga", customer := none } ]

/-- A sample customer row. -/
def sampleCustomer : Customer :=
  { firstname := "Anna"
  , lastname := "Virtanen"
  , email := "anna@example.com"
  , phone := "0401234567"
  , streetaddress := "Katu 1"
  , postcode := "00100"
  , city := "Helsinki"
  , selfHref := "https://example.test/api/customers/1" }

/-- A sample training row with an embedded customer. -/
def sampleTraining : Training :=
  { id := 7
  , date := "2024-01-15T10:00:00.000+00:00"
  , duration := 60
  , activity := "Spinning"
  , customer := some { firstname := "Anna", lastname := "Virtanen" } }

/-- A sample training row whose customer field is missing. -/
def orphanTraining : Training :=
  { id := 8
  , date := "2024-01-16T10:00:00.000+00:00"
  , duration := 30
  , activity := "Yoga"
  , customer := none }

/-- A sample training as the calendar page reads it. -/
def sampleCalTraining : CalTraining :=
  { id := 7
  , dateMs := 1705312800000
  , duration := 60
  , activity := "Spinning"
  , customer := { firstname := "Anna", lastname := "Virtanen" } }

/-- A customers view state with a customer selected for editing. -/
def sampleEditState : CustomerListState :=
  { initialCustomerListState with
      selectedCustomer := some sampleCustomer
    , customerDialogOpen := true
    , isEditing := true
    , customers := [sampleCustomer] }

/-- A customers view state with a customer URL selected for deletion. -/
def sampleDeleteCustomerState : CustomerListState :=
  { initialCustomerListState with
      selectedCustomerUrl := "https://example.test/api/customers/1"
    , deleteDialogOpen := true
    , customers := [sampleCustomer] }

/-- A trainings view state with a training id selected for deletion. -/
def sampleDeleteTrainingState : TrainingListState :=
  { initialTrainingListState with
      selectedTrainingId := some 7
    , deleteDialogOpen := true
    , trainings := [sampleTraining, orphanTraining] }

/-! ## Helper lemmas on the statistics aggregation -/

/-- Membership in the groupKeys fold, generalised over the accumulator. -/
theorem groupKeysAux_mem (ts : List Training) (acc : List String) (a : String) :
    a ∈ ts.foldl (fun ks t => if t.activity ∈ ks then ks else ks ++ [t.activity]) acc ↔
      a ∈ acc ∨ a ∈ ts.map (fun t => t.activity) := by
  induction ts generalizing acc with
  | nil => simp
  | cons t ts ih =>
      rw [List.foldl_cons, ih]
      by_cases h : t.activity ∈ acc
      · simp only [if_pos h, List.map_cons, List.mem_cons]
        constructor
        · rintro (h1 | h2)
          · exact Or.inl h1
          · exact Or.inr (Or.inr h2)
        · rintro (h1 | h2 | h3)
          · exact Or.inl h1
          · exact Or.inl (h2 ▸ h)
          · exact Or.inr h3
      · simp only [if_neg h, List.mem_append, List.mem_singleton, List.map_cons,
          List.mem_cons]
        tauto

/-- A label is a group key exactly when some training carries it. -/
theorem mem_groupKeys_iff (ts : List Training) (a : String) :
    a ∈ groupKeys ts ↔ a ∈ ts.map (fun t => t.activity) := by
  rw [groupKeys, groupKeysAux_mem]
  simp

/-- The groupKeys fold preserves freedom from duplicates. -/
theorem groupKeysAux_nodup (ts : List Training) (acc : List String)
    (h : acc.Nodup) :
    (ts.foldl (fun ks t => if t.activity ∈ ks then ks else ks ++ [t.activity]) acc).Nodup := by
  induction ts generalizing acc with
  | nil => simpa using h
  | cons t ts ih =>
      rw [List.foldl_cons]
      apply ih
      by_cases hm : t.activity ∈ acc
      · simpa [hm] using h
      · rw [if_neg hm]
        refine List.Nodup.append h (List.nodup_singleton _) ?_
        intro x hx hx1
        rw [List.mem_singleton] at hx1
        exact hm (hx1 ▸ hx)

/-- The group keys carry no duplicate activity label. -/
theorem groupKeys_nodup (ts : List Training) : (groupKeys ts).Nodup :=
  groupKeysAux_nodup ts [] List.nodup_nil

/-- Splitting a mapped sum along a Boolean predicate. -/
theorem sum_map_filter_split (f : Training → Int) (p : Training → Bool)
    (ts : List Training) :
    ((ts.filter p).map f).sum + ((ts.filter (fun t => !p t)).map f).sum
      = (ts.map f).sum := by
  induction ts with
  | nil => simp
  | cons t ts ih =>
      by_cases h : p t <;> simp [List.filter_cons, h] <;> omega

/-- Filtering for one label is unaffected by first discarding a different
label. -/
theorem filter_activity_of_ne (ts : List Training) (a b : String) (hba : b ≠ a) :
    (ts.filter (fun t => !(t.activity = a))).filter (fun t => t.activity = b)
      = ts.filter (fun t => t.activity = b) := by
  induction ts with
  | nil => rfl
  | cons t ts ih =>
      by_cases hat : t.activity = a
      · have hbt : ¬(t.activity = b) := fun hc => hba (hc ▸ hat)
        simp [List.filter_cons, hat, hbt, Ne.symm hba, ih]
      · by_cases hbt : t.activity = b <;>
          simp [List.filter_cons, hat, hbt, hba, ih]

/-- Summing the per-key filtered durations over a duplicate-free covering
key list recovers the total duration. -/
theorem sum_over_keys (keys : List String) (ts : List Training)
    (hnd : keys.Nodup) (hcov : ∀ t ∈ ts, t.activity ∈ keys) :
    (keys.map (fun a => ((ts.filter (fun t => t.activity = a)).map
        (fun t => t.duration)).sum)).sum
      = (ts.map (fun t => t.duration)).sum := by
  induction keys generalizing ts with
  | nil =>
      have : ts = [] := by
        cases ts with
        | nil => rfl
        | cons t ts => exact absurd (hcov t (List.mem_cons_self t ts)) (List.not_mem_nil _)
      subst this
      rfl
  | cons a ks ih =>
      have hndk : ks.Nodup := (List.nodup_cons.mp hnd).2
      have hank : a ∉ ks := (List.nodup_cons.mp hnd).1
      have hcov2 : ∀ t ∈ ts.filter (fun t => !(t.activity = a)), t.activity ∈ ks := by
        intro t ht
        rw [List.mem_filter] at ht
        have h1 := hcov t ht.1
        rw [List.mem_cons] at h1
        rcases h1 with h1 | h1
        · exfalso
          have := ht.2
          simp only [Bool.not_eq_true'] at this
          rw [h1] at this
          simp at this
        · exact h1
      have hrw : ∀ b ∈ ks,
          ((ts.filter (fun t => t.activity = b)).map (fun t => t.duration)).sum
            = (((ts.filter (fun t => !(t.activity = a))).filter
                (fun t => t.activity = b)).map (fun t => t.duration)).sum := by
        intro b hb
        rw [filter_activity_of_ne ts a b (fun hc => hank (hc ▸ hb))]
      rw [List.map_cons, List.sum_cons,
        List.map_congr_left hrw, ih (ts.filter (fun t => !(t.activity = a))) hndk hcov2]
      exact sum_map_filter_split (fun t => t.duration) (fun t => t.activity = a) ts

/-- The unsorted statistics, written as one map over the group keys. -/
theorem activityStats_eq_map (ts : List Training) :
    activityStats ts = (groupKeys ts).map (fun a =>
      { activity := a
      , duration := sumBy (ts.filter (fun t => t.activity = a)) }) := by
  rw [activityStats, groupByActivity, List.map_map]
  rfl

/-- The activity labels of the unsorted statistics are the group keys. -/
theorem activityStats_map_activity (ts : List Training) :
    (activityStats ts).map (fun st => st.activity) = groupKeys ts := by
  rw [activityStats_eq_map, List.map_map]
  exact List.map_id _

/-- The unsorted statistics conserve the total duration. -/
theorem sum_activityStats (ts : List Training) :
    ((activityStats ts).map (fun st => st.duration)).sum
      = (ts.map (fun t => t.duration)).sum := by
  rw [activityStats_eq_map, List.map_map]
  refine Eq.trans ?_ (sum_over_keys (groupKeys ts) ts (groupKeys_nodup ts)
    (fun t ht => (mem_groupKeys_iff ts t.activity).mpr
      (List.mem_map_of_mem (fun t => t.activity) ht)))
  rfl

/-- Sorting is a permutation of the unsorted statistics. -/
theorem fetchStats_perm (ts : List Training) :
    (fetchStatsModel ts).Perm (activityStats ts) :=
  List.perm_insertionSort statDescOrder (activityStats ts)

/-- The statistics come out sorted by descending summed duration. -/
theorem fetchStats_sorted (ts : List Training) :
    List.Sorted statDescOrder (fetchStatsModel ts) :=
  List.sorted_insertionSort statDescOrder (activityStats ts)

/-! ## Claim theorems -/

/-- C3: the statistics aggregation groups trainings by exact string
equality of the activity label, sums duration per group, and returns the
groups sorted by descending summed duration; on the spec scenario input
it yields Run 75 then Yoga 20. -/
theorem C3_statistics_grouping :
    fetchStatsModel statsScenarioInput
        = [ { activity := "Run", duration := 75 }
          , { activity := "Yoga", duration := 20 } ] ∧
    (∀ ts : List Training, List.Sorted statDescOrder (fetchStatsModel ts)) ∧
    (∀ (ts : List Training) (a : String), a ∈ ts.map (fun t => t.activity) →
      ({ activity := a
       , duration := sumBy (ts.filter (fun t => t.activity = a)) } : ActivityStat)
        ∈ fetchStatsModel ts) := by
  refine ⟨by decide, fun ts => fetchStats_sorted ts, fun ts a ha => ?_⟩
  rw [(fetchStats_perm ts).mem_iff, activityStats_eq_map]
  exact List.mem_map_of_mem _ ((mem_groupKeys_iff ts a).mpr ha)

/-- Witness for C3 at the spec scenario input. -/
theorem C3_statistics_grouping_witness :
    ({ activity := "Yoga"
     , duration := sumBy (statsScenarioInput.filter (fun t => t.activity = "Yoga")) }
       : ActivityStat) ∈ fetchStatsModel statsScenarioInput :=
  C3_statistics_grouping.2.2 statsScenarioInput "Yoga" (by decide)

/-- C5: the sum of the per-activity aggregated durations equals the sum of
the durations of all trainings in the input. -/
theorem C5_duration_conservation (ts : List Training) :
    ((fetchStatsModel ts).map (fun st => st.duration)).sum
      = (ts.map (fun t => t.duration)).sum := by
  rw [((fetchStats_perm ts).map (fun st => st.duration)).sum_eq]
  exact sum_activityStats ts

/-- C10: the statistics output carries each distinct activity label of the
input exactly once and no label absent from the input. -/
theorem C10_stats_keys_exact (ts : List Training) :
    ((fetchStatsModel ts).map (fun st => st.activity)).Nodup ∧
    ∀ a : String,
      a ∈ (fetchStatsModel ts).map (fun st => st.activity)
        ↔ a ∈ ts.map (fun t => t.activity) := by
  have hperm := (fetchStats_perm ts).map (fun st => st.activity)
  constructor
  · rw [hperm.nodup_iff, activityStats_map_activity]
    exact groupKeys_nodup ts
  · intro a
    rw [hperm.mem_iff, activityStats_map_activity, mem_groupKeys_iff]

/-- C4: every derived calendar entry starts at the training timestamp,
ends at start plus duration-in-minutes converted exactly to milliseconds,
and is labelled with the activity and the customer full name. -/
theorem C4_calendar_projection (ts : List CalTraining) (t : CalTraining)
    (ht : t ∈ ts) :
    toCalendarEvent t ∈ calendarEvents ts ∧
    (toCalendarEvent t).startMs = t.dateMs ∧
    (toCalendarEvent t).endMs = (toCalendarEvent t).startMs + t.duration * 60000 ∧
    (toCalendarEvent t).title
      = t.activity ++ " / "
          ++ (t.customer.firstname ++ " " ++ t.customer.lastname) := by
  refine ⟨List.mem_map_of_mem toCalendarEvent ht, rfl, rfl, ?_⟩
  simp [toCalendarEvent, String.append_assoc]

/-- Witness for C4 at a concrete training. -/
theorem C4_calendar_projection_witness :
    toCalendarEvent sampleCalTraining ∈ calendarEvents [sampleCalTraining] ∧
    (toCalendarEvent sampleCalTraining).startMs = sampleCalTraining.dateMs ∧
    (toCalendarEvent sampleCalTraining).endMs
      = (toCalendarEvent sampleCalTraining).startMs
          + sampleCalTraining.duration * 60000 ∧
    (toCalendarEvent sampleCalTraining).title
      = sampleCalTraining.activity ++ " / "
          ++ (sampleCalTraining.customer.firstname ++ " "
                ++ sampleCalTraining.customer.lastname) :=
  C4_calendar_projection [sampleCalTraining] sampleCalTraining (by decide)

/-- C6: the local text filters are pure selections from the loaded
collection (sublists, no network effect in their types), they are
insensitive to letter case of the search term, and they are idempotent. -/
theorem C6_filter_idempotent (cs : List Customer) (ts : List Training)
    (term : String) :
    filteredCustomers (filteredCustomers cs term) term
        = filteredCustomers cs term ∧
    filteredTrainings (filteredTrainings ts term) term
        = filteredTrainings ts term ∧
    (∀ term2 : String, lowerStr term2 = lowerStr term →
        filteredCustomers cs term2 = filteredCustomers cs term ∧
        filteredTrainings ts term2 = filteredTrainings ts term) ∧
    (filteredCustomers cs term).Sublist cs ∧
    (filteredTrainings ts term).Sublist ts := by
  refine ⟨?_, ?_, ?_, List.filter_sublist cs, List.filter_sublist ts⟩
  · simp [filteredCustomers, List.filter_filter]
  · simp [filteredTrainings, List.filter_filter]
  · intro term2 h
    constructor
    · exact List.filter_congr (fun c _ => by simp [matchesCustomer, h])
    · exact List.filter_congr (fun t _ => by simp [matchesTraining, h])

/-- Witness for C6: the filters agree on an upper-case and a lower-case
spelling of the same term. -/
theorem C6_filter_idempotent_witness :
    filteredCustomers [sampleCustomer] "AN" = filteredCustomers [sampleCustomer] "an" ∧
    filteredTrainings [sampleTraining] "AN" = filteredTrainings [sampleTraining] "an" :=
  (C6_filter_idempotent [sampleCustomer] [sampleTraining] "an").2.2.1 "AN" (by decide)

/-- C9: the trainings filter is total on a training without a customer
object, and keeps it exactly when the activity contains the search term
case-insensitively. -/
theorem C9_filter_null_customer (ts : List Training) (term : String)
    (t : Training) (hmem : t ∈ ts) (hnone : t.customer = none) :
    t ∈ filteredTrainings ts term ↔
      strIncludes (lowerStr t.activity) (lowerStr term) = true := by
  rw [filteredTrainings, List.mem_filter]
  simp [matchesTraining, hnone, hmem]

/-- Witness for C9 at a training with no customer. -/
theorem C9_filter_null_customer_witness :
    orphanTraining ∈ filteredTrainings [sampleTraining, orphanTraining] "YOGA" ↔
      strIncludes (lowerStr orphanTraining.activity) (lowerStr "YOGA") = true :=
  C9_filter_null_customer [sampleTraining, orphanTraining] "YOGA" orphanTraining
    (by decide) (by decide)

/-- C1 counterexample: on the customers view the add-training mutation,
after the mutating call succeeds, issues no list-all call at all, where
the claim demands exactly one. -/
theorem C1_counterexample :
    apiCallsOf (handleAddTraining initialCustomerListState (Except.ok ())).2
        = [ApiCall.addTraining] ∧
    (apiCallsOf (handleAddTraining initialCustomerListState (Except.ok ())).2).count
        ApiCall.getCustomers = 0 ∧
    (apiCallsOf (handleAddTraining initialCustomerListState (Except.ok ())).2).count
        ApiCall.getTrainings = 0 := by
  decide

/-- C1 amended: every mutation of the collection the view itself displays (create,
update, delete customer on the customers view; delete training on the
trainings view) is followed, on success, by exactly one list-all call
whose response wholesale replaces the local collection; the add-training
mutation offered from the customers view issues no list-all call and
leaves the collection of that view unchanged. -/
theorem C1_amended_refetch :
    (∀ (s : CustomerListState) (c : Customer) (cs : List Customer),
        apiCallsOf (handleAddCustomer s (Except.ok c) (Except.ok cs)).2
            = [ApiCall.addCustomer, ApiCall.getCustomers] ∧
        (handleAddCustomer s (Except.ok c) (Except.ok cs)).1.customers = cs) ∧
    (∀ (s : CustomerListState) (form sel : Customer) (cs : List Customer),
        s.selectedCustomer = some sel → sel.selfHref ≠ "" →
        apiCallsOf (handleEditCustomer s form (Except.ok sel) (Except.ok cs)).2
            = [ApiCall.updateCustomer, ApiCall.getCustomers] ∧
        (handleEditCustomer s form (Except.ok sel) (Except.ok cs)).1.customers = cs) ∧
    (∀ (s : CustomerListState) (cs : List Customer),
        s.selectedCustomerUrl ≠ "" →
        apiCallsOf (handleDeleteCustomer s (Except.ok ()) (Except.ok cs)).2
            = [ApiCall.deleteCustomer, ApiCall.getCustomers] ∧
        (handleDeleteCustomer s (Except.ok ()) (Except.ok cs)).1.customers = cs) ∧
    (∀ (s : TrainingListState) (i : Int) (ts : List Training),
        s.selectedTrainingId = some i →
        apiCallsOf (handleDeleteTraining s (Except.ok ()) (Except.ok ts)).2
            = [ApiCall.deleteTraining, ApiCall.getTrainings] ∧
        (handleDeleteTraining s (Except.ok ()) (Except.ok ts)).1.trainings = ts) ∧
    (∀ s : CustomerListState,
        apiCallsOf (handleAddTraining s (Except.ok ())).2 = [ApiCall.addTraining] ∧
        (handleAddTraining s (Except.ok ())).1.customers = s.customers) := by
  refine ⟨?_, ?_, ?_, ?_, ?_⟩
  · intro s c cs
    exact ⟨rfl, rfl⟩
  · intro s form sel cs hsel hhref
    simp [handleEditCustomer, hsel, hhref, fetchCustomers, apiCallsOf]
  · intro s cs hurl
    simp [handleDeleteCustomer, hurl, fetchCustomers, apiCallsOf]
  · intro s i ts hsel
    simp [handleDeleteTraining, hsel, fetchTrainings, apiCallsOf]
  · intro s
    exact ⟨rfl, rfl⟩

/-- Witness for C1 amended at a concrete trainings view deletion. -/
theorem C1_amended_refetch_witness :
    apiCallsOf (handleDeleteTraining sampleDeleteTrainingState (Except.ok ())
          (Except.ok [sampleTraining])).2
        = [ApiCall.deleteTraining, ApiCall.getTrainings] ∧
    (handleDeleteTraining sampleDeleteTrainingState (Except.ok ())
          (Except.ok [sampleTraining])).1.trainings = [sampleTraining] :=
  C1_amended_refetch.2.2.2.1 sampleDeleteTrainingState 7 [sampleTraining] (by decide)

/-- C2: every failed mutation leaves the loaded collection unchanged,
surfaces a failure toast, and issues the mutating call exactly once with
no retry and no refetch. -/
theorem C2_failed_mutation_preserves :
    (∀ (s : CustomerListState) (fr : Outcome (List Customer)),
        (handleAddCustomer s (Except.error ()) fr).1.customers = s.customers ∧
        apiCallsOf (handleAddCustomer s (Except.error ()) fr).2
            = [ApiCall.addCustomer] ∧
        hasToastError (handleAddCustomer s (Except.error ()) fr).2 = true) ∧
    (∀ (s : CustomerListState) (form sel : Customer) (fr : Outcome (List Customer)),
        s.selectedCustomer = some sel → sel.selfHref ≠ "" →
        (handleEditCustomer s form (Except.error ()) fr).1.customers = s.customers ∧
        apiCallsOf (handleEditCustomer s form (Except.error ()) fr).2
            = [ApiCall.updateCustomer] ∧
        hasToastError (handleEditCustomer s form (Except.error ()) fr).2 = true) ∧
    (∀ (s : CustomerListState) (fr : Outcome (List Customer)),
        s.selectedCustomerUrl ≠ "" →
        (handleDeleteCustomer s (Except.error ()) fr).1.customers = s.customers ∧
        apiCallsOf (handleDeleteCustomer s (Except.error ()) fr).2
            = [ApiCall.deleteCustomer] ∧
        hasToastError (handleDeleteCustomer s (Except.error ()) fr).2 = true) ∧
    (∀ s : CustomerListState,
        (handleAddTraining s (Except.error ())).1.customers = s.customers ∧
        apiCallsOf (handleAddTraining s (Except.error ())).2
            = [ApiCall.addTraining] ∧
        hasToastError (handleAddTraining s (Except.error ())).2 = true) ∧
    (∀ (s : TrainingListState) (i : Int) (fr : Outcome (List Training)),
        s.selectedTrainingId = some i →
        (handleDeleteTraining s (Except.error ()) fr).1.trainings = s.trainings ∧
        apiCallsOf (handleDeleteTraining s (Except.error ()) fr).2
            = [ApiCall.deleteTraining] ∧
        hasToastError (handleDeleteTraining s (Except.error ()) fr).2 = true) := by
  refine ⟨?_, ?_, ?_, ?_, ?_⟩
  · intro s fr
    exact ⟨rfl, rfl, rfl⟩
  · intro s form sel fr hsel hhref
    simp [handleEditCustomer, hsel, hhref, apiCallsOf, hasToastError]
  · intro s fr hurl
    simp [handleDeleteCustomer, hurl, apiCallsOf, hasToastError]
  · intro s
    exact ⟨rfl, rfl, rfl⟩
  · intro s i fr hsel
    simp [handleDeleteTraining, hsel, apiCallsOf, hasToastError]

/-- Witness for C2 at a concrete failed customer deletion. -/
theorem C2_failed_mutation_preserves_witness :
    (handleDeleteCustomer sampleDeleteCustomerState (Except.error ())
          (Except.ok [])).1.customers = sampleDeleteCustomerState.customers ∧
    apiCallsOf (handleDeleteCustomer sampleDeleteCustomerState (Except.error ())
          (Except.ok [])).2 = [ApiCall.deleteCustomer] ∧
    hasToastError (handleDeleteCustomer sampleDeleteCustomerState (Except.error ())
          (Except.ok [])).2 = true :=
  C2_failed_mutation_preserves.2.2.1 sampleDeleteCustomerState (Except.ok [])
    (by decide)

/-- C8: when the initial collection load fails, each list view ends up
with an empty collection, is no longer loading, has issued the list-all
call once without retry, and has toasted and logged the failure. -/
theorem C8_initial_load_failure :
    ((fetchCustomers initialCustomerListState (Except.error ())).1.customers = [] ∧
     (fetchCustomers initialCustomerListState (Except.error ())).1.loading = false ∧
     apiCallsOf (fetchCustomers initialCustomerListState (Except.error ())).2
        = [ApiCall.getCustomers] ∧
     hasToastError (fetchCustomers initialCustomerListState (Except.error ())).2
        = true ∧
     hasConsoleError (fetchCustomers initialCustomerListState (Except.error ())).2
        = true) ∧
    ((fetchTrainings initialTrainingListState (Except.error ())).1.trainings = [] ∧
     (fetchTrainings initialTrainingListState (Except.error ())).1.loading = false ∧
     apiCallsOf (fetchTrainings initialTrainingListState (Except.error ())).2
        = [ApiCall.getTrainings] ∧
     hasToastError (fetchTrainings initialTrainingListState (Except.error ())).2
        = true ∧
     hasConsoleError (fetchTrainings initialTrainingListState (Except.error ())).2
        = true) := by
  decide

/-- C7 counterexample: the reset action is not among the operations
wrapped by the api object. -/
theorem C7_counterexample :
    RestAction.resetAllData ∉ apiClientActions := by
  decide

/-- C7 amended: the API client exposes one async operation per customer
and training REST action (seven in all); the reset action is not wrapped
by the API client but performed by the layout shell with a direct HTTP
post, whose request none of the client operations ever issues. -/
theorem C7_amended_api_actions :
    apiClientActions
        = [RestAction.listCustomers, RestAction.createCustomer,
           RestAction.replaceCustomer, RestAction.deleteCustomerAction,
           RestAction.listTrainings, RestAction.createTraining,
           RestAction.deleteTrainingAction] ∧
    (∀ a : RestAction, a ∈ apiClientActions ∨ a = RestAction.resetAllData) ∧
    RestAction.resetAllData ∉ apiClientActions ∧
    layoutResetAction = RestAction.resetAllData ∧
    ∀ (url : String) (i : Int), resetRequest ∉ apiClientRequests url i := by
  refine ⟨rfl, fun a => by cases a <;> decide, by decide, rfl, ?_⟩
  intro url i hmem
  rw [apiClientRequests] at hmem
  simp only [List.mem_cons, List.not_mem_nil, or_false] at hmem
  rcases hmem with h | h | h | h | h | h | h <;>
    simp [resetRequest, BASE_URL] at h

end PersonalTrainer
